import Mathlib

/-!
Shallow embedding of the element-level finite-element kernel of Fermi
(`src/element.h`).  The file `element.h` is the authoritative source; the
entities it uses from `fem.h` / `mesh.h` (the `Node` record, the `Segment2`
reference shape-function table, the fixed-size `Matrix<DIM>` utility and the
`ElementBase` constructor) are not part of the provided sources and are
modelled from the specification, as marked on each such definition.

Doubles are modelled as elements of a field `K`; claim theorems instantiate
`K` with `ℝ` (or `ℚ` for exact closed evaluations).  The Gauss abscissa of the
two-point rule is an explicit parameter `g`; the standard value `(√3)⁻¹` is
characterised by `g ^ 2 = 3⁻¹`, which is the only property proofs ever need.
-/

namespace Fermi

/-- Modelled from the spec: the mesh `Node` record (`mesh.h`, not under the
provided sources): a point in physical space with up to 3 coordinate
components (§3 of the spec). -/
structure Node (K : Type) where
  x : K
  y : K
  z : K
  deriving DecidableEq

/-- Modelled from the spec: `coordinate j` selects the j-th physical
coordinate of a node (§4.3 writes `nodes[n].coordinate(j)`). -/
def Node.coordinate {K : Type} (p : Node K) : ℕ → K
  | 0 => p.x
  | 1 => p.y
  | _ => p.z

/-- Modelled from the spec: the reference coordinate of Gauss point `gp` of
the two-point Gauss rule on the segment `[-1, 1]`, with abscissa parameter
`g` (the standard table uses `g = (√3)⁻¹`).  The `Segment2` table lives in
`fem.h`, which is not under the provided sources; §4.1 and §8 of the spec pin
it down: two linear shape functions, a quadrature rule exact enough to
integrate their products (§8's exact mass matrix), hence the symmetric
two-point Gauss rule with unit weights. -/
def Segment2.xi {K : Type} [Field K] (g : K) : ℕ → K
  | 0 => -g
  | 1 => g
  | _ => 0

/-- Modelled from the spec: `Segment2`'s shape-function table
`sh()[n][gp]`: the linear shape functions `N₀(ξ) = (1-ξ)/2`,
`N₁(ξ) = (1+ξ)/2` evaluated at Gauss point `gp`.  Indices outside the table
(node ≥ 2) yield 0. -/
def Segment2.sh {K : Type} [Field K] (g : K) (n gp : ℕ) : K :=
  if n = 0 then (1 - Segment2.xi g gp) / 2
  else if n = 1 then (1 + Segment2.xi g gp) / 2
  else 0

/-- Modelled from the spec: `Segment2`'s derivative table `dsh()[n][k][gp]`:
the constant reference derivatives `dN₀/dξ = -1/2`, `dN₁/dξ = 1/2`, for the
single reference direction `k = 0`.  Indices outside the table yield 0. -/
def Segment2.dsh {K : Type} [Field K] (n k _gp : ℕ) : K :=
  if n = 0 ∧ k = 0 then -(1 / 2)
  else if n = 1 ∧ k = 0 then 1 / 2
  else 0

/-- Modelled from the spec: `Segment2`'s quadrature weights `weights()[gp]`:
two unit weights (the two-point Gauss rule). -/
def Segment2.weight {K : Type} [Field K] (gp : ℕ) : K :=
  if gp < 2 then 1 else 0

/-- Number of quadrature points of the `Segment2` table: `weights().size()`
is 2. -/
def Segment2.ngp : ℕ := 2

/-- Errors of the spec's error taxonomy (§7). -/
inductive ElementError where
  | shapeMismatch
  | degenerateGeometry
  deriving DecidableEq

/-- Embeds the data of `ElementDiffusion<DIM>` (element.h lines 28-42)
together with the `nodes` / `nodeIndexes` members it inherits from
`ElementBase` (`mesh.h`, not under the provided sources; fields as described
in §3 of the spec). -/
structure ElementDiffusion (K : Type) where
  nodes : List (Node K)
  nodeIndexes : List ℕ
  xs_a : K
  xs_f : K
  nu : K
  d : K

/-- Modelled from the spec: the 1×1 matrix `Matrix<1>` (`fem.h`, not under
the provided sources). -/
structure Mat1 (K : Type) where
  a00 : K

/-- Modelled from the spec: the 2×2 matrix `Matrix<2>` (`fem.h`, not under
the provided sources), rows `[[a00, a01], [a10, a11]]`. -/
structure Mat2 (K : Type) where
  a00 : K
  a01 : K
  a10 : K
  a11 : K
  deriving DecidableEq

/-- Modelled from the spec: the determinant `Matrix<1>::inverse` computes
(§4.2: for `DIM == 1` the inverse reduces to the scalar reciprocal). -/
def Mat1.det {K : Type} [Field K] (m : Mat1 K) : K := m.a00

/-- Modelled from the spec: the value `Matrix<1>::inverse` stores in its
output parameter: the scalar reciprocal (§4.2). -/
def Mat1.inverse {K : Type} [Field K] (m : Mat1 K) : Mat1 K := ⟨m.a00⁻¹⟩

/-- Modelled from the spec: `Matrix<1>::inverse` reports a
degenerate-geometry error exactly when the determinant is zero (§4.2). -/
def Mat1.degenerate {K : Type} [Field K] (m : Mat1 K) : Prop := Mat1.det m = 0

/-- Modelled from the spec: the determinant `Matrix<2>::inverse` computes by
closed-form cofactor expansion (§4.2). -/
def Mat2.det {K : Type} [Field K] (m : Mat2 K) : K :=
  m.a00 * m.a11 - m.a01 * m.a10

/-- Modelled from the spec: the value `Matrix<2>::inverse` stores in its
output parameter: the cofactor (adjugate-over-determinant) inverse (§4.2). -/
def Mat2.inverse {K : Type} [Field K] (m : Mat2 K) : Mat2 K :=
  ⟨m.a11 / Mat2.det m, -m.a01 / Mat2.det m, -m.a10 / Mat2.det m, m.a00 / Mat2.det m⟩

/-- Modelled from the spec: `Matrix<2>::inverse` reports a
degenerate-geometry error exactly when the determinant is zero (§4.2). -/
def Mat2.degenerate {K : Type} [Field K] (m : Mat2 K) : Prop := Mat2.det m = 0

/-- The default node used to model the C++ subscript `nodes[n]`; the loops
of `element.h` only subscript in range, so the default is never produced by
an in-range index. -/
def defaultNode {K : Type} [Field K] : Node K := ⟨0, 0, 0⟩

/-- Embeds the Jacobian accumulation of
`ElementSegment2::computeInverseJacobian` (element.h lines 50-59): the single
entry `jac.data[0][0] = Σ_{n < nodes.size()} dsh[n][0][gp] * nodes[n].x`. -/
def ElementSegment2.jac {K : Type} [Field K] (e : ElementDiffusion K) (gp : ℕ) :
    Mat1 K :=
  ⟨((List.range e.nodes.length).map fun n =>
      Segment2.dsh n 0 gp * (e.nodes.getD n defaultNode).x).sum⟩

/-- Embeds `ElementSegment2::computeInverseJacobian` (element.h lines 47-62):
builds the 1×1 Jacobian, delegates to `Matrix<1>::inverse` for the inverse
and the determinant, and unconditionally returns the error code `0`
(line 61: `return 0;`, regardless of degeneracy). -/
def ElementSegment2.computeInverseJacobian {K : Type} [Field K]
    (e : ElementDiffusion K) (gp : ℕ) : Mat1 K × K × ℤ :=
  (Mat1.inverse (ElementSegment2.jac e gp), Mat1.det (ElementSegment2.jac e gp), 0)

/-- Row-major flattening of an `n × n` table of entries, as produced by the
nested loops `for i < n: for j < n: out[n*i + j] = f i j` of `element.h`. -/
def rowMajor {K : Type} (n : ℕ) (f : ℕ → ℕ → K) : List K :=
  ((List.range n).map fun i => (List.range n).map fun j => f i j).flatten

/-- Embeds the entry `(i, j)` of `ElementSegment2::computeAe` (element.h
lines 73-83): the sum over the two quadrature points of
`(d * dsh_i * dsh_j + xs_a * sh_i * sh_j) * wgp[gp] * det`, with
`dsh_i = dsh[i][0][gp] * ijac.data[0][0]`. -/
def ElementSegment2.AeEntry {K : Type} [Field K] (g : K) (e : ElementDiffusion K)
    (i j : ℕ) : K :=
  ((List.range Segment2.ngp).map fun gp =>
    (e.d * (Segment2.dsh i 0 gp * (ElementSegment2.computeInverseJacobian e gp).1.a00) *
        (Segment2.dsh j 0 gp * (ElementSegment2.computeInverseJacobian e gp).1.a00) +
      e.xs_a * Segment2.sh g i gp * Segment2.sh g j gp) *
      Segment2.weight gp * (ElementSegment2.computeInverseJacobian e gp).2.1).sum

/-- Embeds `ElementSegment2::computeAe` (element.h lines 64-85): the
row-major `n × n` matrix of accumulated quadrature contributions. -/
def ElementSegment2.computeAe {K : Type} [Field K] (g : K)
    (e : ElementDiffusion K) : List K :=
  rowMajor e.nodes.length (ElementSegment2.AeEntry g e)

/-- Embeds the entry `(i, j)` of `ElementSegment2::computeBe` (element.h
lines 94-103): the sum over the two quadrature points of
`nu * xs_f * sh_i * sh_j * wgp[gp] * det`. -/
def ElementSegment2.BeEntry {K : Type} [Field K] (g : K) (e : ElementDiffusion K)
    (i j : ℕ) : K :=
  ((List.range Segment2.ngp).map fun gp =>
    e.nu * e.xs_f * Segment2.sh g i gp * Segment2.sh g j gp *
      Segment2.weight gp * (ElementSegment2.computeInverseJacobian e gp).2.1).sum

/-- Embeds `ElementSegment2::computeBe` (element.h lines 87-105). -/
def ElementSegment2.computeBe {K : Type} [Field K] (g : K)
    (e : ElementDiffusion K) : List K :=
  rowMajor e.nodes.length (ElementSegment2.BeEntry g e)

/-- Embeds the body of the entry loop of `Quad2D::computeInverseJacobian`
(element.h lines 118-121): for every row `i` and column `j` the code runs the
same accumulation `Σ_{n < nodes.size()} dsh[n][0][gp] * nodes[n].x` — the
derivative-direction index is hardcoded to `0` and only the `x` coordinate is
read, so the body ignores `i` and `j` (the `Segment2` table the quad reuses
has entries only for nodes 0 and 1; out-of-table reads are modelled as 0). -/
def Quad2D.jacEntry {K : Type} [Field K] (e : ElementDiffusion K)
    (_i _j gp : ℕ) : K :=
  ((List.range e.nodes.length).map fun n =>
    Segment2.dsh n 0 gp * (e.nodes.getD n defaultNode).x).sum

/-- Embeds the Jacobian matrix assembled by `Quad2D::computeInverseJacobian`
(element.h lines 115-123). -/
def Quad2D.jac {K : Type} [Field K] (e : ElementDiffusion K) (gp : ℕ) :
    Mat2 K :=
  ⟨Quad2D.jacEntry e 0 0 gp, Quad2D.jacEntry e 0 1 gp,
   Quad2D.jacEntry e 1 0 gp, Quad2D.jacEntry e 1 1 gp⟩

/-- Embeds `Quad2D::computeInverseJacobian` (element.h lines 111-126):
builds the 2×2 Jacobian, delegates to `Matrix<2>::inverse`, and
unconditionally returns the error code `0` (line 125). -/
def Quad2D.computeInverseJacobian {K : Type} [Field K]
    (e : ElementDiffusion K) (gp : ℕ) : Mat2 K × K × ℤ :=
  (Mat2.inverse (Quad2D.jac e gp), Mat2.det (Quad2D.jac e gp), 0)

/-- Embeds the entry `(i, j)` of `Quad2D::computeAe` (element.h lines
140-146): identical in form to the segment case, with
`dsh_i = dsh[i][0][gp] * ijac.data[0][0]` — only reference direction 0 and
only entry `[0][0]` of the inverse Jacobian are used. -/
def Quad2D.AeEntry {K : Type} [Field K] (g : K) (e : ElementDiffusion K)
    (i j : ℕ) : K :=
  ((List.range Segment2.ngp).map fun gp =>
    (e.d * (Segment2.dsh i 0 gp * (Quad2D.computeInverseJacobian e gp).1.a00) *
        (Segment2.dsh j 0 gp * (Quad2D.computeInverseJacobian e gp).1.a00) +
      e.xs_a * Segment2.sh g i gp * Segment2.sh g j gp) *
      Segment2.weight gp * (Quad2D.computeInverseJacobian e gp).2.1).sum

/-- Embeds `Quad2D::computeAe` (element.h lines 128-149). -/
def Quad2D.computeAe {K : Type} [Field K] (g : K) (e : ElementDiffusion K) :
    List K :=
  rowMajor e.nodes.length (Quad2D.AeEntry g e)

/-- Embeds the entry `(i, j)` of `Quad2D::computeBe` (element.h lines
162-165). -/
def Quad2D.BeEntry {K : Type} [Field K] (g : K) (e : ElementDiffusion K)
    (i j : ℕ) : K :=
  ((List.range Segment2.ngp).map fun gp =>
    e.nu * e.xs_f * Segment2.sh g i gp * Segment2.sh g j gp *
      Segment2.weight gp * (Quad2D.computeInverseJacobian e gp).2.1).sum

/-- Embeds `Quad2D::computeBe` (element.h lines 151-169). -/
def Quad2D.computeBe {K : Type} [Field K] (g : K) (e : ElementDiffusion K) :
    List K :=
  rowMajor e.nodes.length (Quad2D.BeEntry g e)

/-- The closed variant of supported concrete element kinds, standing for the
virtual dispatch over `ElementDiffusion`'s subclasses (element.h lines 44 and
108). -/
inductive Element (K : Type) where
  | segment2 : ElementDiffusion K → Element K
  | quad2d : ElementDiffusion K → Element K

/-- The underlying `ElementDiffusion` data of a concrete element. -/
def Element.base {K : Type} : Element K → ElementDiffusion K
  | .segment2 e => e
  | .quad2d e => e

/-- Virtual dispatch of `computeAe` over the supported element kinds. -/
def Element.computeAe {K : Type} [Field K] (g : K) : Element K → List K
  | .segment2 e => ElementSegment2.computeAe g e
  | .quad2d e => Quad2D.computeAe g e

/-- Virtual dispatch of `computeBe` over the supported element kinds. -/
def Element.computeBe {K : Type} [Field K] (g : K) : Element K → List K
  | .segment2 e => ElementSegment2.computeBe g e
  | .quad2d e => Quad2D.computeBe g e

/-- Modelled from the spec: construction of an `ElementSegment2` through the
`ElementBase` constructor (`mesh.h`, not under the provided sources).  Per §7
of the spec, construction fails fast with `ShapeMismatchError` when
`nodes.size() != nodeIndexes.size()` or the sizes do not match the expected
local node count of the kind (2 for the two-node segment); on success the
element value exists and the matrix routines become callable. -/
def mkElementSegment2 {K : Type} [Field K] (nodes : List (Node K))
    (nodeIndexes : List ℕ) (xs_a xs_f nu d : K) :
    Except ElementError (ElementDiffusion K) :=
  if nodes.length = nodeIndexes.length ∧ nodes.length = 2 then
    .ok ⟨nodes, nodeIndexes, xs_a, xs_f, nu, d⟩
  else
    .error .shapeMismatch

/-- Modelled from the spec: construction of a `Quad2D` element; the expected
local node count of the four-node quadrilateral is 4 (§7). -/
def mkQuad2D {K : Type} [Field K] (nodes : List (Node K))
    (nodeIndexes : List ℕ) (xs_a xs_f nu d : K) :
    Except ElementError (ElementDiffusion K) :=
  if nodes.length = nodeIndexes.length ∧ nodes.length = 4 then
    .ok ⟨nodes, nodeIndexes, xs_a, xs_f, nu, d⟩
  else
    .error .shapeMismatch

/-! Concrete fixtures, over `ℚ` so that the kernel can evaluate them
exactly. -/

/-- A unit-square `Quad2D` element: nodes (0,0), (1,0), (1,1), (0,1), with
`xs_a = 0`, `xs_f = 0`, `nu = 0`, `d = 1`. -/
def sqQ : ElementDiffusion ℚ :=
  ⟨[⟨0, 0, 0⟩, ⟨1, 0, 0⟩, ⟨1, 1, 0⟩, ⟨0, 1, 0⟩], [0, 1, 2, 3], 0, 0, 0, 1⟩

/-- The unit square of `sqQ` with every `y` coordinate moved (the geometry is
genuinely different in coordinate direction 1). -/
def sqQy : ElementDiffusion ℚ :=
  ⟨[⟨0, 3, 0⟩, ⟨1, 5, 0⟩, ⟨1, 7, 0⟩, ⟨0, 9, 0⟩], [0, 1, 2, 3], 0, 0, 0, 1⟩

/-- A degenerate two-node segment: both nodes at `x = 1` (zero length), with
`xs_a = xs_f = nu = d = 1`. -/
def segDeg : ElementDiffusion ℚ :=
  ⟨[⟨1, 0, 0⟩, ⟨1, 0, 0⟩], [0, 1], 1, 1, 1, 1⟩

/-! Claim theorems. -/

/-- Claim C1, behaviour of the code at a failing input: for the unit-square
`Quad2D` element the Jacobian assembled by `computeInverseJacobian` does not
follow `J[i][j] = Σ_n dshapes(n, i, gp) * nodes[n].coordinate(j)`: its
summand varies with neither `i` nor `j` — all four entries equal the same
value `1/2`, and moving every `y` coordinate of the element leaves the whole
Jacobian unchanged, so column direction 1 is never read. -/
theorem quad_jacobian_entry_constant_at_unit_square :
    Quad2D.jac sqQ 0 = Quad2D.jac sqQy 0 ∧
    (Quad2D.jac sqQ 0).a01 = (Quad2D.jac sqQ 0).a00 ∧
    (Quad2D.jac sqQ 0).a10 = (Quad2D.jac sqQ 0).a00 ∧
    (Quad2D.jac sqQ 0).a00 = 1 / 2 := by
  refine ⟨?_, rfl, rfl, ?_⟩ <;>
    norm_num [Quad2D.jac, Quad2D.jacEntry, sqQ, sqQy, Segment2.dsh, defaultNode,
      List.range_succ]

/-- Claim C2, behaviour of the code at a failing input: for the zero-length
segment `segDeg` the Jacobian determinant is zero at both quadrature points
(so the spec-modelled `Matrix<1>::inverse` reports degeneracy), yet
`computeInverseJacobian` still returns the success code `0`, and `computeAe`
and `computeBe` silently return fully-accumulated matrices instead of
aborting with an error. -/
theorem degenerate_segment_is_not_reported :
    Mat1.degenerate (ElementSegment2.jac segDeg 0) ∧
    Mat1.degenerate (ElementSegment2.jac segDeg 1) ∧
    (ElementSegment2.computeInverseJacobian segDeg 0).2.2 = 0 ∧
    ElementSegment2.computeAe 0 segDeg = [0, 0, 0, 0] ∧
    ElementSegment2.computeBe 0 segDeg = [0, 0, 0, 0] := by
  unfold Mat1.degenerate
  refine ⟨?_, ?_, ?_, ?_, ?_⟩ <;>
    norm_num [ElementSegment2.computeAe, ElementSegment2.computeBe,
      ElementSegment2.AeEntry, ElementSegment2.BeEntry,
      ElementSegment2.computeInverseJacobian, ElementSegment2.jac,
      Mat1.inverse, Mat1.det, rowMajor, segDeg, Segment2.dsh, Segment2.sh,
      Segment2.xi, Segment2.weight, Segment2.ngp, defaultNode, List.range_succ]

/-- Claim C3, behaviour of the code at a failing input: `Quad2D::computeAe`
contracts only reference direction `k = 0` with only entry `[0][0]` of the
inverse Jacobian; combined with the always-singular Jacobian this collapses
the whole stiffness matrix of the unit square (with `d = 1`, `xs_a = 0`) to
sixteen zeros, while the true bilinear stiffness matrix of a unit square is
nonzero. -/
theorem quad_Ae_collapses_at_unit_square :
    Quad2D.computeAe (0 : ℚ) sqQ = List.replicate 16 0 := by
  norm_num [Quad2D.computeAe, Quad2D.AeEntry, Quad2D.computeInverseJacobian,
    Quad2D.jac, Quad2D.jacEntry, Mat2.inverse, Mat2.det, rowMajor, sqQ,
    Segment2.dsh, Segment2.sh, Segment2.xi, Segment2.weight, Segment2.ngp,
    defaultNode, List.range_succ, List.replicate]

/-- Claim C4: for every `Quad2D` element and every quadrature point the
Jacobian assembled by `computeInverseJacobian` has all four entries equal
(the summand `dsh[n][0][gp] * nodes[n].x` depends on neither the row nor the
column index), hence its determinant — as computed by the matrix utility
before inverting — is exactly zero for every input element. -/
theorem quad_jacobian_always_singular {K : Type} [Field K]
    (e : ElementDiffusion K) (gp : ℕ) :
    ((Quad2D.jac e gp).a01 = (Quad2D.jac e gp).a00 ∧
     (Quad2D.jac e gp).a10 = (Quad2D.jac e gp).a00 ∧
     (Quad2D.jac e gp).a11 = (Quad2D.jac e gp).a00) ∧
    Mat2.det (Quad2D.jac e gp) = 0 ∧
    (Quad2D.computeInverseJacobian e gp).2.1 = 0 := by
  refine ⟨⟨rfl, rfl, rfl⟩, ?_, ?_⟩ <;>
    simp [Quad2D.computeInverseJacobian, Mat2.det, Quad2D.jac, Quad2D.jacEntry,
      sub_self]

/-- A list obtained by mapping rows over an outer list, flattened, indexed at
`n * i + j`, yields the `(i, j)` entry. -/
theorem flatten_map_getD {K : Type} [Field K] (f : ℕ → ℕ → K) (n : ℕ) (l : List ℕ) :
    ∀ i j, i < l.length → j < n →
      ((l.map fun a => (List.range n).map fun b => f a b).flatten).getD (n * i + j) 0 =
        f (l.getD i 0) j := by
  induction l with
  | nil => intro i j hi _; simp at hi
  | cons a t ih =>
    intro i j hi hj
    cases i with
    | zero =>
      rw [List.map_cons, List.flatten_cons, Nat.mul_zero, Nat.zero_add,
        List.getD_append _ _ _ _ (by simpa using hj)]
      simp [List.getD_eq_getElem?_getD, List.getElem?_map, List.getElem?_range hj]
    | succ k =>
      have hmul : n * (k + 1) = n * k + n := Nat.mul_succ n k
      rw [List.map_cons, List.flatten_cons,
        List.getD_append_right _ _ _ _ (by simp; omega)]
      have hsub : n * (k + 1) + j - ((List.range n).map fun b => f a b).length =
          n * k + j := by
        simp; omega
      rw [hsub]
      exact ih k j (by simpa using hi) hj

/-- The `n * i + j` element of a row-major flattened table is its `(i, j)`
entry, for in-range `i` and `j`. -/
theorem rowMajor_getD {K : Type} [Field K] (n : ℕ) (f : ℕ → ℕ → K) (i j : ℕ)
    (hi : i < n) (hj : j < n) :
    (rowMajor n f).getD (n * i + j) 0 = f i j := by
  have h := flatten_map_getD f n (List.range n) i j (by simpa using hi) hj
  rw [rowMajor]
  simpa [List.getD_eq_getElem?_getD, List.getElem?_range hi] using h

/-- The quadrature summand of the segment's `Ae` entry is symmetric in the
two local node indices. -/
theorem segAeEntry_symm {K : Type} [Field K] (g : K) (e : ElementDiffusion K)
    (i j : ℕ) :
    ElementSegment2.AeEntry g e i j = ElementSegment2.AeEntry g e j i := by
  simp [ElementSegment2.AeEntry, Segment2.ngp, List.range_succ]
  ring

/-- The quadrature summand of the segment's `Be` entry is symmetric in the
two local node indices. -/
theorem segBeEntry_symm {K : Type} [Field K] (g : K) (e : ElementDiffusion K)
    (i j : ℕ) :
    ElementSegment2.BeEntry g e i j = ElementSegment2.BeEntry g e j i := by
  simp [ElementSegment2.BeEntry, Segment2.ngp, List.range_succ]
  ring

/-- The quadrature summand of the quad's `Ae` entry is symmetric in the two
local node indices. -/
theorem quadAeEntry_symm {K : Type} [Field K] (g : K) (e : ElementDiffusion K)
    (i j : ℕ) :
    Quad2D.AeEntry g e i j = Quad2D.AeEntry g e j i := by
  simp [Quad2D.AeEntry, Segment2.ngp, List.range_succ]
  ring

/-- The quadrature summand of the quad's `Be` entry is symmetric in the two
local node indices. -/
theorem quadBeEntry_symm {K : Type} [Field K] (g : K) (e : ElementDiffusion K)
    (i j : ℕ) :
    Quad2D.BeEntry g e i j = Quad2D.BeEntry g e j i := by
  simp [Quad2D.BeEntry, Segment2.ngp, List.range_succ]
  ring

/-- Claim C7: for every element of either supported kind and all in-range
local node indices `i`, `j`, the matrices returned by `computeAe` and
`computeBe` are symmetric: entry `n*i + j` equals entry `n*j + i`.  (Proved
for every element, degenerate or not, which covers the claim's non-degenerate
case.) -/
theorem Ae_Be_symmetric (g : ℝ) (el : Element ℝ) (i j : ℕ)
    (hi : i < el.base.nodes.length) (hj : j < el.base.nodes.length) :
    (Element.computeAe g el).getD (el.base.nodes.length * i + j) 0 =
      (Element.computeAe g el).getD (el.base.nodes.length * j + i) 0 ∧
    (Element.computeBe g el).getD (el.base.nodes.length * i + j) 0 =
      (Element.computeBe g el).getD (el.base.nodes.length * j + i) 0 := by
  cases el with
  | segment2 e =>
    simp only [Element.base] at hi hj ⊢
    refine ⟨?_, ?_⟩
    · rw [Element.computeAe, ElementSegment2.computeAe,
        rowMajor_getD _ _ _ _ hi hj, rowMajor_getD _ _ _ _ hj hi]
      exact segAeEntry_symm g e i j
    · rw [Element.computeBe, ElementSegment2.computeBe,
        rowMajor_getD _ _ _ _ hi hj, rowMajor_getD _ _ _ _ hj hi]
      exact segBeEntry_symm g e i j
  | quad2d e =>
    simp only [Element.base] at hi hj ⊢
    refine ⟨?_, ?_⟩
    · rw [Element.computeAe, Quad2D.computeAe,
        rowMajor_getD _ _ _ _ hi hj, rowMajor_getD _ _ _ _ hj hi]
      exact quadAeEntry_symm g e i j
    · rw [Element.computeBe, Quad2D.computeBe,
        rowMajor_getD _ _ _ _ hi hj, rowMajor_getD _ _ _ _ hj hi]
      exact quadBeEntry_symm g e i j

/-- A concrete two-node segment over `ℝ` used to instantiate theorems with
hypotheses. -/
def segW : ElementDiffusion ℝ := ⟨[⟨0, 0, 0⟩, ⟨3, 0, 0⟩], [0, 1], 2, 3, 4, 5⟩

/-- Witness for claim C7: the symmetry theorem applied to the concrete
segment `segW` at indices `(0, 1)`. -/
theorem Ae_Be_symmetric_witness :
    (Element.computeAe 0 (.segment2 segW)).getD
        ((Element.segment2 segW).base.nodes.length * 0 + 1) 0 =
      (Element.computeAe 0 (.segment2 segW)).getD
        ((Element.segment2 segW).base.nodes.length * 1 + 0) 0 ∧
    (Element.computeBe 0 (.segment2 segW)).getD
        ((Element.segment2 segW).base.nodes.length * 0 + 1) 0 =
      (Element.computeBe 0 (.segment2 segW)).getD
        ((Element.segment2 segW).base.nodes.length * 1 + 0) 0 :=
  Ae_Be_symmetric 0 (.segment2 segW) 0 1 (by simp [segW, Element.base])
    (by simp [segW, Element.base])

/-- Claim C5: for a two-node segment of physical length `L > 0` (nodes `x0`
and `x0 + L`) with `xs_a = 0`, `xs_f = 0` and `d = D`, `computeAe` returns
exactly the 2×2 stiffness matrix `D/L * [[1, -1], [-1, 1]]` (row-major),
for any Gauss abscissa `g` and any node-index list. -/
theorem segment_stiffness_exact (g x0 L D nuv : ℝ) (idx : List ℕ) (hL : 0 < L) :
    ElementSegment2.computeAe g ⟨[⟨x0, 0, 0⟩, ⟨x0 + L, 0, 0⟩], idx, 0, 0, nuv, D⟩ =
      [D / L, -(D / L), -(D / L), D / L] := by
  have hL' : L ≠ 0 := ne_of_gt hL
  simp [ElementSegment2.computeAe, ElementSegment2.AeEntry,
    ElementSegment2.computeInverseJacobian, ElementSegment2.jac, Mat1.inverse,
    Mat1.det, rowMajor, Segment2.dsh, Segment2.sh, Segment2.xi, Segment2.weight,
    Segment2.ngp, defaultNode, List.range_succ]
  refine ⟨?_, ?_, ?_⟩ <;>
    (field_simp;
     rw [show (-(x0 * 2) + (x0 + L) * 2) = 2 * L from by ring,
       div_eq_iff (by positivity)];
     ring)

/-- Witness for claim C5: the stiffness theorem applied to the segment with
nodes 0 and 2, `d = 5`. -/
theorem segment_stiffness_exact_witness :
    (0 : ℝ) < 2 ∧
    ElementSegment2.computeAe (0 : ℝ)
        (⟨[⟨0, 0, 0⟩, ⟨0 + 2, 0, 0⟩], [0, 1], 0, 0, 0, 5⟩ : ElementDiffusion ℝ) =
      [5 / 2, -(5 / 2), -(5 / 2), 5 / 2] :=
  ⟨by norm_num, segment_stiffness_exact 0 0 2 5 0 [0, 1] (by norm_num)⟩

/-- Claim C6: for a two-node segment of physical length `L` (nodes `x0` and
`x0 + L`) with `xs_a = 0` and `d = 0`, `computeBe` returns exactly the 2×2
mass matrix `nu*xs_f*L/6 * [[2, 1], [1, 2]]` (row-major), provided the Gauss
abscissa satisfies `g² = 1/3` (the two-point Gauss rule). -/
theorem segment_mass_exact (g x0 L nuv xsf : ℝ) (idx : List ℕ)
    (hg : g ^ 2 = 3⁻¹) :
    ElementSegment2.computeBe g ⟨[⟨x0, 0, 0⟩, ⟨x0 + L, 0, 0⟩], idx, 0, xsf, nuv, 0⟩ =
      [nuv * xsf * L / 6 * 2, nuv * xsf * L / 6, nuv * xsf * L / 6,
        nuv * xsf * L / 6 * 2] := by
  simp [ElementSegment2.computeBe, ElementSegment2.BeEntry,
    ElementSegment2.computeInverseJacobian, ElementSegment2.jac, Mat1.inverse,
    Mat1.det, rowMajor, Segment2.dsh, Segment2.sh, Segment2.xi, Segment2.weight,
    Segment2.ngp, defaultNode, List.range_succ]
  refine ⟨?_, ?_, ?_, ?_⟩ <;>
    first
      | linear_combination (nuv * xsf * L / 4) * hg
      | linear_combination (-(nuv * xsf * L) / 4) * hg

/-- Witness for claim C6: the mass-matrix theorem applied at the standard
Gauss abscissa `(√3)⁻¹` to the segment with nodes 0 and 6,
`xs_f = nu = 1`. -/
theorem segment_mass_exact_witness :
    ((Real.sqrt 3)⁻¹) ^ 2 = 3⁻¹ ∧
    ElementSegment2.computeBe (Real.sqrt 3)⁻¹
        (⟨[⟨0, 0, 0⟩, ⟨0 + 6, 0, 0⟩], [0, 1], 0, 1, 1, 0⟩ : ElementDiffusion ℝ) =
      [1 * 1 * 6 / 6 * 2, 1 * 1 * 6 / 6, 1 * 1 * 6 / 6, 1 * 1 * 6 / 6 * 2] := by
  have hg : ((Real.sqrt 3)⁻¹) ^ 2 = 3⁻¹ := by
    rw [inv_pow, Real.sq_sqrt (by norm_num : (0 : ℝ) ≤ 3)]
  exact ⟨hg, segment_mass_exact (Real.sqrt 3)⁻¹ 0 6 1 1 [0, 1] hg⟩

/-- Claim C8: constructing an element whose `nodes` and `nodeIndexes` have
different lengths, or whose length does not match the kind's local node
count, fails with `ShapeMismatchError` — for both supported kinds; on the
error path no element value exists, so no matrix computation is possible. -/
theorem construction_shape_mismatch {K : Type} [Field K] (nodes : List (Node K))
    (idx : List ℕ) (p1 p2 p3 p4 : K)
    (hseg : nodes.length ≠ idx.length ∨ nodes.length ≠ 2)
    (hquad : nodes.length ≠ idx.length ∨ nodes.length ≠ 4) :
    mkElementSegment2 nodes idx p1 p2 p3 p4 = .error .shapeMismatch ∧
    mkQuad2D nodes idx p1 p2 p3 p4 = .error .shapeMismatch := by
  constructor
  · rw [mkElementSegment2, if_neg (by tauto)]
  · rw [mkQuad2D, if_neg (by tauto)]

/-- Witness for claim C8: zero nodes against one node index is rejected by
both constructors. -/
theorem construction_shape_mismatch_witness :
    ((([] : List (Node ℝ)).length ≠ ([0] : List ℕ).length ∨
        ([] : List (Node ℝ)).length ≠ 2)) ∧
    mkElementSegment2 ([] : List (Node ℝ)) [0] 0 0 0 0 = .error .shapeMismatch ∧
    mkQuad2D ([] : List (Node ℝ)) [0] 0 0 0 0 = .error .shapeMismatch :=
  ⟨by simp, construction_shape_mismatch [] [0] 0 0 0 0 (by simp) (by simp)⟩

/-- Claim C9: the matrices returned by `computeAe` and `computeBe` are pure
functions of the element's nodes and material parameters alone — two
elements agreeing on those (regardless of `nodeIndexes`) produce identical
results, for both kinds; in particular repeated calls on the same element
return identical results, there being no other state. -/
theorem compute_pure_in_nodes_and_materials (g : ℝ) (e eAlt : ElementDiffusion ℝ)
    (hn : e.nodes = eAlt.nodes) (h1 : e.xs_a = eAlt.xs_a)
    (h2 : e.xs_f = eAlt.xs_f) (h3 : e.nu = eAlt.nu) (h4 : e.d = eAlt.d) :
    ElementSegment2.computeAe g e = ElementSegment2.computeAe g eAlt ∧
    ElementSegment2.computeBe g e = ElementSegment2.computeBe g eAlt ∧
    Quad2D.computeAe g e = Quad2D.computeAe g eAlt ∧
    Quad2D.computeBe g e = Quad2D.computeBe g eAlt := by
  obtain ⟨n1, i1, a1, f1, u1, d1⟩ := e
  obtain ⟨n2, i2, a2, f2, u2, d2⟩ := eAlt
  simp only at hn h1 h2 h3 h4
  subst hn h1 h2 h3 h4
  exact ⟨rfl, rfl, rfl, rfl⟩

/-- The segment `segW` with different global node indices but identical nodes
and materials. -/
def segW2 : ElementDiffusion ℝ := ⟨[⟨0, 0, 0⟩, ⟨3, 0, 0⟩], [7, 8], 2, 3, 4, 5⟩

/-- Witness for claim C9: `segW` and `segW2` differ only in `nodeIndexes`
and get identical matrices. -/
theorem compute_pure_in_nodes_and_materials_witness :
    segW.nodes = segW2.nodes ∧
    ElementSegment2.computeAe 0 segW = ElementSegment2.computeAe 0 segW2 ∧
    ElementSegment2.computeBe 0 segW = ElementSegment2.computeBe 0 segW2 ∧
    Quad2D.computeAe 0 segW = Quad2D.computeAe 0 segW2 ∧
    Quad2D.computeBe 0 segW = Quad2D.computeBe 0 segW2 :=
  ⟨rfl, compute_pure_in_nodes_and_materials 0 segW segW2 rfl rfl rfl rfl rfl⟩

/-- Claim C10: for every quadrature point of the `Segment2` reference table
(the table both supported kinds use) the shape-function values sum to 1 over
the two local nodes, and the derivative values sum to 0 over the two local
nodes for every reference direction, for any Gauss abscissa `g`. -/
theorem partition_of_unity (g : ℝ) (gp k : ℕ) (hgp : gp < 2) (hk : k < 1) :
    ((List.range 2).map fun n => Segment2.sh g n gp).sum = 1 ∧
    ((List.range 2).map fun n => Segment2.dsh n k gp).sum = (0 : ℝ) := by
  interval_cases gp <;> interval_cases k <;>
    (constructor <;>
      (simp [Segment2.sh, Segment2.dsh, Segment2.xi, List.range_succ]; try ring))

/-- Witness for claim C10: the partition-of-unity theorem at quadrature
point 0 and reference direction 0 (with `g = 0`). -/
theorem partition_of_unity_witness :
    ((List.range 2).map fun n => Segment2.sh (0 : ℝ) n 0).sum = 1 ∧
    ((List.range 2).map fun n => Segment2.dsh n 0 0).sum = (0 : ℝ) :=
  partition_of_unity 0 0 0 (by norm_num) (by norm_num)

end Fermi
